import Mathlib

/-!
Verification of the `onion::Event` publish/subscribe channel
(`src/onion/Event.hpp`) against its natural-language specification.

Shallow embedding. Markers (`EventHandler::Token` objects, identified by
their `shared_ptr` control block) are modelled as natural-number ids.
A liveness environment `live : Nat → Bool` records, for each marker id,
whether at least one `shared_ptr` copy of it (i.e. at least one copy of
the issued `EventHandler` token) still exists. A registration entry is a
pair of a marker id (the stored `weak_ptr` back-reference's target) and a
callback id (identifying the stored `std::function` object). The channel
state `m_handlers` is a `List Entry`; callbacks are observed through the
list of (callback id, payload) invocations a `Trigger` performs.
-/

namespace Onion

/-- One registration entry of `m_handlers`:
`std::tuple<std::weak_ptr<EventHandler::Token>, std::function<void(const EventArgs&)>>`.
`marker` is the id of the Token the weak back-reference points at,
`cb` identifies the stored callback object. -/
structure Entry where
  marker : Nat
  cb : Nat
deriving DecidableEq, Repr

/-- A liveness environment: `live m = true` iff at least one `shared_ptr`
copy of marker `m` (i.e. one copy of its token) still exists. -/
abbrev Liveness := Nat → Bool

/-- `weak_ptr::lock()` on the back-reference to marker `m`: returns the
owning pointer (`some m`) while the marker is alive, the null pointer
(`none`) once it has expired. -/
def lockWeak (live : Liveness) (m : Nat) : Option Nat :=
  if live m then some m else none

/-- `weak_ptr::expired()` on the back-reference to marker `m`. -/
def expired (live : Liveness) (m : Nat) : Bool :=
  !(live m)

/-- `Event::ClearExpired`: erase-remove of every entry whose
back-reference is expired (keep exactly the non-expired ones). -/
def ClearExpired (live : Liveness) (hs : List Entry) : List Entry :=
  hs.filter (fun e => !(expired live e.marker))

/-- `Event::Unsubscribe`: `handlerId` is the token's shared pointer
(`t = some m` for a token holding marker `m`, `t = none` for an empty,
moved-from token); erase-remove of every entry whose back-reference
`lock()`s to a pointer equal to `handlerId`. -/
def Unsubscribe (live : Liveness) (hs : List Entry) (t : Option Nat) : List Entry :=
  hs.filter (fun e => !(lockWeak live e.marker == t))

/-- Liveness environment right after `std::make_shared` allocated the
fresh marker `m` inside `Event::Subscribe`: `m` is alive (the local
`tokenPtr` owns it), every other marker is as before. -/
def extendLive (live : Liveness) (m : Nat) : Liveness :=
  fun x => if x = m then true else live x

/-- `Event::Subscribe`: allocate a fresh marker `m`, append the entry
under the lock, run `ClearExpired` (with the new marker alive, since
`tokenPtr` holds it), and return the token `EventHandler(tokenPtr)`,
modelled as `some m`. -/
def Subscribe (live : Liveness) (hs : List Entry) (m cb : Nat) :
    List Entry × Option Nat :=
  (ClearExpired (extendLive live m) (hs ++ [⟨m, cb⟩]), some m)

/-- The invocation loop of `Event::Trigger` over the snapshot copy
`tmpHandlers`: for each entry in order, if its back-reference `lock()`s
successfully, the callback is invoked with the payload. The result is
the list of performed invocations (callback id, payload), in order. -/
def Trigger {α : Type} (live : Liveness) : List Entry → α → List (Nat × α)
  | [], _ => []
  | e :: rest, p =>
    if live e.marker then (e.cb, p) :: Trigger live rest p
    else Trigger live rest p

/-- `Event::Trigger` as a state transformer: it copies `m_handlers`
under the lock, invokes outside the lock, and—being a `const` method
that never writes `m_handlers`—leaves the stored sequence unchanged.
Returns (invocations performed, channel state afterwards). -/
def TriggerRun {α : Type} (live : Liveness) (hs : List Entry) (p : α) :
    List (Nat × α) × List Entry :=
  (Trigger live hs p, hs)

/-- `Event::Clear`: `m_handlers.clear()` under the lock. -/
def Clear (hs : List Entry) : List Entry :=
  []

/-- The invocation loop of `Trigger` with a time-varying liveness
environment: `liveAt j` is the liveness environment at the moment the
snapshot entry at position `j` is processed. This models mutations
(token destructions) landing between the snapshot and an individual
invocation; `Trigger live hs p = dispatchAt (fun _ => live) hs 0 p`. -/
def dispatchAt {α : Type} (liveAt : Nat → Liveness) :
    List Entry → Nat → α → List (Nat × α)
  | [], _, _ => []
  | e :: rest, j, p =>
    if liveAt j e.marker then (e.cb, p) :: dispatchAt liveAt rest (j + 1) p
    else dispatchAt liveAt rest (j + 1) p

/-- Reference count of each marker: how many `shared_ptr` copies of the
marker (copies of its token, per `EventHandler`'s defaulted copy
constructor over `m_handler`) currently exist. -/
def alive (rc : Nat → Nat) : Liveness :=
  fun m => decide (0 < rc m)

/-- Copying a token for marker `m` (`EventHandler`'s defaulted copy
constructor: `shared_ptr` copy increments the shared count). -/
def copyTok (rc : Nat → Nat) (m : Nat) : Nat → Nat :=
  fun x => if x = m then rc x + 1 else rc x

/-- Destroying one token copy for marker `m` (`EventHandler` destructor:
`shared_ptr` destructor decrements the shared count; the marker is
deallocated when it reaches zero). -/
def destroyTok (rc : Nat → Nat) (m : Nat) : Nat → Nat :=
  fun x => if x = m then rc x - 1 else rc x

/-- A list paired with positions starting at `i`; used to state at which
snapshot position an entry is dispatched. -/
def withIdx {β : Type} : Nat → List β → List (Nat × β)
  | _, [] => []
  | i, b :: rest => (i, b) :: withIdx (i + 1) rest

/-- Abstract lock/storage actions, used to model the locking discipline
of the channel's methods. `acq`/`rel` are `m_mutex` acquisition and
release (a `std::lock_guard` scope), `store` is a read or write of
`m_handlers` under the lock, `mkToken` is construction of the returned
`EventHandler`, and `invoke` is a callback invocation. -/
inductive Act (α : Type) where
  | acq : Act α
  | rel : Act α
  | store : Act α
  | mkToken : Nat → Act α
  | invoke : Nat → α → Act α

/-- The invocation section of a `Trigger` trace. -/
def invokesOf {α : Type} (l : List (Nat × α)) : List (Act α) :=
  l.map (fun ic => Act.invoke ic.1 ic.2)

/-- Action trace of `Event::ClearExpired`: the whole body runs under one
`lock_guard`. -/
def ClearExpiredTrace {α : Type} : List (Act α) :=
  [Act.acq, Act.store, Act.rel]

/-- Action trace of `Event::Unsubscribe`: the erase-remove runs under
one `lock_guard` held to the end of the body. -/
def UnsubscribeTrace {α : Type} : List (Act α) :=
  [Act.acq, Act.store, Act.rel]

/-- Action trace of `Event::Clear`. -/
def ClearTrace {α : Type} : List (Act α) :=
  [Act.acq, Act.store, Act.rel]

/-- Action trace of `Event::Subscribe`: append under a `lock_guard` in
an inner scope, then `ClearExpired()` (taking the lock again), then
construction of the returned token, all after the lock is released. -/
def SubscribeTrace {α : Type} (m : Nat) : List (Act α) :=
  [Act.acq, Act.store, Act.rel] ++ ClearExpiredTrace ++ [Act.mkToken m]

/-- Action trace of `Event::Trigger`: copy the handler list under a
`lock_guard` in an inner scope, then perform every invocation after the
lock is released. -/
def TriggerTrace {α : Type} (live : Liveness) (hs : List Entry) (p : α) :
    List (Act α) :=
  [Act.acq, Act.store, Act.rel] ++ invokesOf (Trigger live hs p)

/-- Runs a trace against a non-reentrant mutex held at depth `d` by this
thread: `true` iff no acquisition ever happens while the lock is already
held (which for `std::mutex` would be a self-deadlock). -/
def deadlockFree {α : Type} : Nat → List (Act α) → Bool
  | _, [] => true
  | d, Act.acq :: rest => decide (d = 0) && deadlockFree (d + 1) rest
  | d, Act.rel :: rest => deadlockFree (d - 1) rest
  | d, _ :: rest => deadlockFree d rest

/-- Lock depth after running a trace from depth `d`. -/
def depthAfter {α : Type} : Nat → List (Act α) → Nat
  | d, [] => d
  | d, Act.acq :: rest => depthAfter (d + 1) rest
  | d, Act.rel :: rest => depthAfter (d - 1) rest
  | d, _ :: rest => depthAfter d rest

/-- The lock depths at which the invocations of a trace happen, running
from depth `d`. -/
def invokeDepths {α : Type} : Nat → List (Act α) → List Nat
  | _, [] => []
  | d, Act.acq :: rest => invokeDepths (d + 1) rest
  | d, Act.rel :: rest => invokeDepths (d - 1) rest
  | d, Act.invoke _ _ :: rest => d :: invokeDepths d rest
  | d, _ :: rest => invokeDepths d rest

/-! ### Basic characterizations of the operations -/

theorem Trigger_eq_filter_map {α : Type} (live : Liveness) (hs : List Entry) (p : α) :
    Trigger live hs p = (hs.filter (fun e => live e.marker)).map (fun e => (e.cb, p)) := by
  induction hs with
  | nil => rfl
  | cons e rest ih =>
    by_cases h : live e.marker <;> simp [Trigger, List.filter_cons, h, ih]

theorem mem_Trigger {α : Type} (live : Liveness) (hs : List Entry) (p : α) (c : Nat) :
    (c, p) ∈ Trigger live hs p ↔ ∃ e ∈ hs, live e.marker = true ∧ e.cb = c := by
  rw [Trigger_eq_filter_map]
  simp only [List.mem_map, List.mem_filter, Prod.ext_iff]
  constructor
  · rintro ⟨e, ⟨hemem, hl⟩, hcb, -⟩
    exact ⟨e, hemem, hl, hcb⟩
  · rintro ⟨e, hemem, hl, hcb⟩
    exact ⟨e, ⟨hemem, hl⟩, hcb, trivial⟩

theorem ClearExpired_eq (live : Liveness) (hs : List Entry) :
    ClearExpired live hs = hs.filter (fun e => live e.marker) := by
  apply List.filter_congr
  intro e _
  simp [expired]

theorem Unsubscribe_none_eq (live : Liveness) (hs : List Entry) :
    Unsubscribe live hs none = hs.filter (fun e => live e.marker) := by
  apply List.filter_congr
  intro e _
  by_cases h : live e.marker <;> simp [lockWeak, h]

theorem Unsubscribe_some_eq (live : Liveness) (hs : List Entry) (m : Nat)
    (hm : live m = true) :
    Unsubscribe live hs (some m) = hs.filter (fun e => decide (e.marker ≠ m)) := by
  apply List.filter_congr
  intro e _
  by_cases hem : e.marker = m
  · subst hem
    simp [lockWeak, hm]
  · by_cases hl : live e.marker <;> simp [lockWeak, hl, hem]

theorem dispatchAt_eq {α : Type} (liveAt : Nat → Liveness) (hs : List Entry) (i : Nat)
    (p : α) :
    dispatchAt liveAt hs i p =
      ((withIdx i hs).filter (fun je => liveAt je.1 je.2.marker)).map
        (fun je => (je.2.cb, p)) := by
  induction hs generalizing i with
  | nil => rfl
  | cons e rest ih =>
    by_cases h : liveAt i e.marker <;>
      simp [dispatchAt, withIdx, List.filter_cons, h, ih]

theorem dispatchAt_const {α : Type} (live : Liveness) (hs : List Entry) (i : Nat)
    (p : α) :
    dispatchAt (fun _ => live) hs i p = Trigger live hs p := by
  induction hs generalizing i with
  | nil => rfl
  | cons e rest ih =>
    by_cases h : live e.marker <;> simp [dispatchAt, Trigger, h, ih]

theorem destroy_copy_id (rc : Nat → Nat) (m : Nat) :
    destroyTok (copyTok rc m) m = rc := by
  funext x
  by_cases h : x = m <;> simp [destroyTok, copyTok, h]

/-! ### The claims -/

/-- Claim C1: when every marker of the channel's N entries is alive,
`Trigger` invokes each of the N callbacks exactly once, in insertion
order, with exactly the payload passed to `Trigger`; in general an entry
whose marker has expired is skipped silently (`Trigger` produces exactly
the live entries' invocations, in order). -/
theorem C1_trigger_in_order {α : Type} (live : Liveness) (hs : List Entry) (p : α)
    (h : ∀ e ∈ hs, live e.marker = true) :
    Trigger live hs p = hs.map (fun e => (e.cb, p)) ∧
    ∀ (live2 : Liveness) (hs2 : List Entry),
      Trigger live2 hs2 p =
        (hs2.filter (fun e => live2 e.marker)).map (fun e => (e.cb, p)) := by
  constructor
  · rw [Trigger_eq_filter_map, List.filter_eq_self.mpr h]
  · intro live2 hs2
    exact Trigger_eq_filter_map live2 hs2 p

/-- Witness for C1 at a concrete channel: two live subscriptions,
payload 5, both invoked in order with payload 5. -/
theorem C1_trigger_in_order_witness :
    Trigger (fun _ => true) [⟨0, 10⟩, ⟨1, 11⟩] (5 : Nat) = [(10, 5), (11, 5)] :=
  (C1_trigger_in_order (fun _ => true) [⟨0, 10⟩, ⟨1, 11⟩] 5 (by decide)).1

/-- Claim C2: a registered entry's callback is invoked by `Trigger` iff
its marker's token reference count is positive (some copy of the token
still exists); copying the token and destroying only the copy changes
nothing observable; destroying the last copy (count 1 → 0) guarantees
the callback is not invoked again. -/
theorem C2_token_lifetime {α : Type} (rc : Nat → Nat) (hs : List Entry) (p : α)
    (e : Entry) (he : e ∈ hs)
    (huniq : ∀ e2 ∈ hs, e2.cb = e.cb → e2.marker = e.marker)
    (hlast : rc e.marker = 1) :
    ((e.cb, p) ∈ Trigger (alive rc) hs p ↔ 0 < rc e.marker) ∧
    Trigger (alive (destroyTok (copyTok rc e.marker) e.marker)) hs p =
      Trigger (alive rc) hs p ∧
    (e.cb, p) ∉ Trigger (alive (destroyTok rc e.marker)) hs p := by
  refine ⟨?_, ?_, ?_⟩
  · rw [mem_Trigger]
    constructor
    · rintro ⟨e2, he2, hl, hcb⟩
      have hmk := huniq e2 he2 hcb
      rw [← hmk]
      simpa [alive] using hl
    · intro h0
      exact ⟨e, he, by simpa [alive] using h0, rfl⟩
  · rw [destroy_copy_id]
  · rw [mem_Trigger]
    rintro ⟨e2, he2, hl, hcb⟩
    have hmk := huniq e2 he2 hcb
    rw [hmk] at hl
    simp [alive, destroyTok, hlast] at hl

/-- Witness for C2 at a concrete channel: one entry, one token copy. -/
theorem C2_token_lifetime_witness :
    ((7, 3) ∈ Trigger (alive (fun _ => 1)) [⟨0, 7⟩] (3 : Nat) ↔ 0 < (1 : Nat)) ∧
    Trigger (alive (destroyTok (copyTok (fun _ => 1) 0) 0)) [⟨0, 7⟩] (3 : Nat) =
      Trigger (alive (fun _ => 1)) [⟨0, 7⟩] (3 : Nat) ∧
    (7, 3) ∉ Trigger (alive (destroyTok (fun _ => 1) 0)) [⟨0, 7⟩] (3 : Nat) :=
  C2_token_lifetime (fun _ => 1) [⟨0, 7⟩] 3 ⟨0, 7⟩ (by decide) (by decide) rfl

/-- Claim C3: for a token holding marker `m` (hence `m` alive),
`Unsubscribe` removes exactly the entries whose back-reference resolves
to `m` and no others; a subsequent `Trigger` never invokes that token's
callback `c` (where `c` is registered only under marker `m`); and a
second `Unsubscribe` with the same token is a no-op leaving the channel
state unchanged. -/
theorem C3_unsubscribe_removes {α : Type} (live : Liveness) (hs : List Entry)
    (m c : Nat) (p : α) (hm : live m = true)
    (hc : ∀ e ∈ hs, e.cb = c → e.marker = m) :
    Unsubscribe live hs (some m) = hs.filter (fun e => decide (e.marker ≠ m)) ∧
    (c, p) ∉ Trigger live (Unsubscribe live hs (some m)) p ∧
    Unsubscribe live (Unsubscribe live hs (some m)) (some m) =
      Unsubscribe live hs (some m) := by
  refine ⟨Unsubscribe_some_eq live hs m hm, ?_, ?_⟩
  · rw [mem_Trigger]
    rintro ⟨e2, he2, -, hcb⟩
    rw [Unsubscribe_some_eq live hs m hm, List.mem_filter] at he2
    have : e2.marker ≠ m := by simpa using he2.2
    exact this (hc e2 he2.1 hcb)
  · show (Unsubscribe live hs (some m)).filter _ = Unsubscribe live hs (some m)
    apply List.filter_eq_self.mpr
    intro e hemem
    exact (List.mem_filter.mp hemem).2

/-- Witness for C3 at a concrete channel: two live entries, unsubscribe
the first one's token. -/
theorem C3_unsubscribe_removes_witness :
    Unsubscribe (fun _ => true) [⟨0, 7⟩, ⟨1, 8⟩] (some 0) = [⟨1, 8⟩] ∧
    (7, 3) ∉ Trigger (fun _ => true)
      (Unsubscribe (fun _ => true) [⟨0, 7⟩, ⟨1, 8⟩] (some 0)) (3 : Nat) ∧
    Unsubscribe (fun _ => true)
        (Unsubscribe (fun _ => true) [⟨0, 7⟩, ⟨1, 8⟩] (some 0)) (some 0) =
      Unsubscribe (fun _ => true) [⟨0, 7⟩, ⟨1, 8⟩] (some 0) :=
  C3_unsubscribe_removes (fun _ => true) [⟨0, 7⟩, ⟨1, 8⟩] 0 7 3 (by decide) (by decide)

/-- Claim C4: `Subscribe` with a fresh marker `m` appends the new entry
at the end, prunes exactly the expired old entries (never the just-added
one, whose marker is alive), and returns a token owning `m`; the new
callback is present and last in dispatch order. -/
theorem C4_subscribe_appends (live : Liveness) (hs : List Entry) (m cb : Nat)
    (hfresh : ∀ e ∈ hs, e.marker ≠ m) :
    (Subscribe live hs m cb).1 =
      hs.filter (fun e => live e.marker) ++ [⟨m, cb⟩] ∧
    (Subscribe live hs m cb).2 = some m := by
  constructor
  · show ClearExpired (extendLive live m) (hs ++ [⟨m, cb⟩]) = _
    rw [ClearExpired_eq, List.filter_append]
    congr 1
    · apply List.filter_congr
      intro e hemem
      simp [extendLive, hfresh e hemem]
    · simp [extendLive]
  · rfl

/-- Witness for C4 at a concrete channel: one live entry (marker 0),
one expired entry (marker 5), subscribing fresh marker 1. -/
theorem C4_subscribe_appends_witness :
    (Subscribe (fun x => decide (x = 0)) [⟨0, 7⟩, ⟨5, 9⟩] 1 8).1 =
      [⟨0, 7⟩, ⟨1, 8⟩] ∧
    (Subscribe (fun x => decide (x = 0)) [⟨0, 7⟩, ⟨5, 9⟩] 1 8).2 = some 1 :=
  C4_subscribe_appends (fun x => decide (x = 0)) [⟨0, 7⟩, ⟨5, 9⟩] 1 8 (by decide)

/-- Claim C5 counterexample: a re-entrant (or concurrent) `Unsubscribe`
that lands between `Trigger`'s snapshot and the entry's invocation does
NOT suppress the call. Channel state `[⟨0, 5⟩]`, snapshot already taken;
`Unsubscribe` with the token for marker 0 removes the entry from the
channel (first conjunct) but does not destroy the marker — the caller
still holds the token's shared pointer, so the marker stays alive — and
the in-flight dispatch over the snapshot still locks the back-reference
and invokes callback 5 with payload 37 (second conjunct). -/
theorem C5_counterexample :
    Unsubscribe (fun _ => true) [⟨0, 5⟩] (some 0) = [] ∧
    dispatchAt (fun _ _ => true) [⟨0, 5⟩] 0 (37 : Nat) = [(5, 37)] := by
  decide

/-- Claim C5 amended: each snapshot entry is individually checked for
liveness at its own invocation time (`liveAt j` is the liveness
environment when the entry at snapshot position `j` is processed): the
call at position `j` happens iff the entry's marker is then alive, so a
marker expiry (destruction of the last token copy) landing between
snapshot and invocation suppresses exactly that call, while an
`Unsubscribe` that only removes the entry from storage, with the token
still alive, does not suppress it; with unchanging liveness the dispatch
is exactly `Trigger`. -/
theorem C5_liveness_checked_at_invocation {α : Type} (liveAt : Nat → Liveness)
    (live : Liveness) (hs : List Entry) (p : α) :
    dispatchAt liveAt hs 0 p =
      ((withIdx 0 hs).filter (fun je => liveAt je.1 je.2.marker)).map
        (fun je => (je.2.cb, p)) ∧
    dispatchAt (fun _ => live) hs 0 p = Trigger live hs p :=
  ⟨dispatchAt_eq liveAt hs 0 p, dispatchAt_const live hs 0 p⟩

/-- Claim C6 counterexample: `Trigger` does not prune. The channel holds
one entry whose marker has expired (no token copy left); after `Trigger`
completes the stored sequence still contains that expired entry —
`Event::Trigger` is a `const` method that never writes `m_handlers`. -/
theorem C6_counterexample :
    (TriggerRun (fun _ => false) [⟨0, 5⟩] (1 : Nat)).2 = [⟨0, 5⟩] ∧
    expired (fun _ => false) 0 = true := by
  decide

/-- Claim C6 amended: a stale entry (expired marker) is removed from the
channel's storage by the next `Subscribe` call (after `Subscribe`
completes, no entry with an expired back-reference remains), while
`Trigger` merely skips expired entries during dispatch and leaves the
stored sequence exactly unchanged. -/
theorem C6_pruned_on_subscribe {α : Type} (live : Liveness) (hs : List Entry)
    (m cb : Nat) (p : α) :
    (Subscribe live hs m cb).1.all
      (fun e => !(expired (extendLive live m) e.marker)) = true ∧
    (TriggerRun live hs p).2 = hs := by
  constructor
  · rw [List.all_eq_true]
    intro e hemem
    exact (List.mem_filter.mp hemem).2
  · rfl

/-- Claim C7: pruning is unobservable through dispatch — `Trigger` on
`ClearExpired s` yields exactly the same invocations, in the same order,
with the same payload, as `Trigger` on `s`; and `ClearExpired` keeps the
surviving entries in their relative order (a sublist) and keeps exactly
the entries whose back-reference still resolves. -/
theorem C7_prune_unobservable {α : Type} (live : Liveness) (hs : List Entry)
    (p : α) :
    Trigger live (ClearExpired live hs) p = Trigger live hs p ∧
    List.Sublist (ClearExpired live hs) hs ∧
    ∀ e : Entry, e ∈ ClearExpired live hs ↔ e ∈ hs ∧ live e.marker = true := by
  refine ⟨?_, ?_, ?_⟩
  · rw [ClearExpired_eq, Trigger_eq_filter_map, Trigger_eq_filter_map]
    congr 1
    apply List.filter_eq_self.mpr
    intro e hemem
    exact (List.mem_filter.mp hemem).2
  · show List.Sublist (hs.filter _) hs
    exact List.filter_sublist hs
  · intro e
    rw [ClearExpired_eq]
    simp [List.mem_filter]

/-- Claim C8: `Clear` unconditionally empties the registration sequence;
a `Trigger` after `Clear` (with no intervening `Subscribe`) invokes zero
callbacks; and any previously issued token passed to `Unsubscribe`
afterwards is a harmless no-op leaving the (empty) state unchanged. -/
theorem C8_clear_empties {α : Type} (live : Liveness) (hs : List Entry) (p : α)
    (t : Option Nat) :
    Clear hs = [] ∧
    Trigger live (Clear hs) p = [] ∧
    Unsubscribe live (Clear hs) t = Clear hs :=
  ⟨rfl, rfl, rfl⟩

/-- Claim C10: `Unsubscribe` with an empty token (null shared pointer,
as left by a move) removes exactly the expired entries — the null
pointer compares equal precisely to an expired back-reference's `lock()`
result — never removes an entry whose marker is alive, and is observably
equivalent to `ClearExpired`. -/
theorem C10_empty_token_prunes (live : Liveness) (hs : List Entry) :
    Unsubscribe live hs none = ClearExpired live hs ∧
    ∀ e : Entry, e ∈ Unsubscribe live hs none ↔ e ∈ hs ∧ live e.marker = true := by
  constructor
  · rw [Unsubscribe_none_eq, ClearExpired_eq]
  · intro e
    rw [Unsubscribe_none_eq]
    simp [List.mem_filter]

/-! ### Locking discipline -/

theorem deadlockFree_append {α : Type} (t1 t2 : List (Act α)) (d : Nat) :
    deadlockFree d (t1 ++ t2) =
      (deadlockFree d t1 && deadlockFree (depthAfter d t1) t2) := by
  induction t1 generalizing d with
  | nil => simp [deadlockFree, depthAfter]
  | cons a t1 ih =>
    cases a <;> simp [deadlockFree, depthAfter, ih, Bool.and_assoc]

theorem invokesOf_deadlockFree {α : Type} (l : List (Nat × α)) (d : Nat) :
    deadlockFree d (invokesOf l) = true := by
  induction l with
  | nil => rfl
  | cons ic l ih => simpa [invokesOf, deadlockFree] using ih

theorem invokesOf_depthAfter {α : Type} (l : List (Nat × α)) (d : Nat) :
    depthAfter d (invokesOf l) = d := by
  induction l with
  | nil => rfl
  | cons ic l ih => simpa [invokesOf, depthAfter] using ih

theorem invokesOf_invokeDepths {α : Type} (l : List (Nat × α)) (d : Nat) :
    invokeDepths d (invokesOf l) = List.replicate l.length d := by
  induction l with
  | nil => rfl
  | cons ic l ih => simpa [invokesOf, invokeDepths, List.replicate] using ih

/-- Claim C9: the channel's lock is never held while a callback
executes. Every invocation of `Trigger`'s trace happens at lock depth 0
(first conjunct: the list of depths at its invocations is all zeros, one
per invocation), and therefore a callback running at any point of the
invocation section — after invocations `l1` of the snapshot dispatch,
before the remaining `l2` — may re-enter the channel with a full
`Subscribe`, `Unsubscribe`, `Clear`, `ClearExpired` or `Trigger` on the
same thread and the combined trace never acquires the already-held
non-reentrant mutex (second conjunct: no self-deadlock). -/
theorem C9_lock_free_dispatch {α : Type} (live live2 : Liveness)
    (hs hs2 : List Entry) (p p2 : α) (m : Nat) (w : List (Act α))
    (l1 l2 : List (Nat × α))
    (hw : w = SubscribeTrace m ∨ w = UnsubscribeTrace ∨ w = ClearTrace ∨
      w = ClearExpiredTrace ∨ w = TriggerTrace live2 hs2 p2)
    (hsplit : Trigger live hs p = l1 ++ l2) :
    invokeDepths 0 (TriggerTrace live hs p) =
      List.replicate (Trigger live hs p).length 0 ∧
    deadlockFree 0
      ([Act.acq, Act.store, Act.rel] ++ invokesOf l1 ++ w ++ invokesOf l2) =
      true := by
  have hflat : deadlockFree 0 w = true ∧ depthAfter 0 w = 0 := by
    rcases hw with h | h | h | h | h <;> subst h
    · exact ⟨rfl, rfl⟩
    · exact ⟨rfl, rfl⟩
    · exact ⟨rfl, rfl⟩
    · exact ⟨rfl, rfl⟩
    · constructor
      · show deadlockFree 0 ([Act.acq, Act.store, Act.rel] ++ _) = true
        rw [deadlockFree_append]
        simp [deadlockFree, depthAfter, invokesOf_deadlockFree]
      · show depthAfter 0 ([Act.acq, Act.store, Act.rel] ++ _) = 0
        have := invokesOf_depthAfter (Trigger live2 hs2 p2) 0
        simpa [depthAfter, List.cons_append]
  constructor
  · show invokeDepths 0 ([Act.acq, Act.store, Act.rel] ++ _) = _
    have := invokesOf_invokeDepths (Trigger live hs p) 0
    simpa [invokeDepths, List.cons_append]
  · simp only [deadlockFree_append]
    simp [deadlockFree, depthAfter, invokesOf_deadlockFree, invokesOf_depthAfter,
      hflat.1, hflat.2]

/-- Witness for C9: one live subscription; the callback body (running
after zero earlier invocations, with its own invocation as the remaining
dispatch) re-enters with a full `Unsubscribe`; the combined trace is
deadlock-free. -/
theorem C9_lock_free_dispatch_witness :
    invokeDepths 0 (TriggerTrace (fun _ => true) [⟨0, 5⟩] (3 : Nat)) =
      List.replicate (Trigger (fun _ => true) [⟨0, 5⟩] (3 : Nat)).length 0 ∧
    deadlockFree 0
      ([Act.acq, Act.store, Act.rel] ++ invokesOf ([] : List (Nat × Nat)) ++
        UnsubscribeTrace ++ invokesOf [(5, 3)]) = true :=
  C9_lock_free_dispatch (fun _ => true) (fun _ => true) [⟨0, 5⟩] [] 3 3 0
    UnsubscribeTrace [] [(5, 3)] (Or.inr (Or.inl rfl)) (by decide)

end Onion
